import Mathlib

/-!
Verification of the santa endpoint-security daemon's authorization pipeline,
as specified in the design document, against a shallow Lean embedding.

The repository source under review is the composition root
`Source/santad/SantadDeps.h`, a header declaring the subsystems it wires
together.  The pipeline subsystems themselves (Result Cache, Execution
Controller, Process Tracker, Enricher) are declared there but their code is
not part of the excerpt, so those components are modelled from the spec's
component contracts (sections 3-7 of the design document); each such
definition carries a doc comment saying so.  `SantadDeps` itself is modelled
from the header.
-/

namespace Santa

/-- A decision key: stable identifier of what is being authorized. -/
abbrev Key := Nat

/-- An identifier for a concurrent requester (worker handling one event). -/
abbrev Requester := Nat

/-- Modelled from the spec: a verdict is one of ALLOW, DENY, ALLOW-COMPILER
(scoped exception), PENDING-REMOTE (spec section 3, Data Model). -/
inductive Verdict
  | allow
  | deny
  | allowCompiler
  | pendingRemote
  deriving DecidableEq, Repr

/-- Remove every pair with the given key from an association list. -/
def removeKey {α : Type} (l : List (Key × α)) (k : Key) : List (Key × α) :=
  l.filter (fun p => p.1 != k)

/-- Look a key up in an association list. -/
def assocFind {α : Type} : List (Key × α) → Key → Option α
  | [], _ => none
  | (k', a) :: rest, k => if k' = k then some a else assocFind rest k

/-- Replace the value stored under a key in an association list (appending the
pair if the key is absent). -/
def assocSet {α : Type} : List (Key × α) → Key → α → List (Key × α)
  | [], k, a => [(k, a)]
  | (k', a') :: rest, k, a =>
      if k' = k then (k, a) :: rest else (k', a') :: assocSet rest k a

/-- Modelled from the spec: the Result Cache state (spec section 4.1, whose
code `EventProviders/AuthResultCache.h` is not in the excerpt).  `entries`
memoizes completed verdicts per decision key; `inflight` records, for each key
currently being evaluated, the list of requesters subscribed to that single
in-flight evaluation.  The bounded-size/LRU eviction policy is elided: no
claim under verification depends on eviction. -/
structure CacheState where
  entries : List (Key × Verdict)
  inflight : List (Key × List Requester)
  deriving DecidableEq, Repr

/-- The empty cache. -/
def CacheState.empty : CacheState := ⟨[], []⟩

/-- Result of a cache lookup. -/
inductive LookupResult
  | hit (v : Verdict)
  | miss
  deriving DecidableEq, Repr

/-- Modelled from the spec: `Lookup(key) -> Hit(verdict) | Miss`. -/
def CacheState.lookup (s : CacheState) (k : Key) : LookupResult :=
  match assocFind s.entries k with
  | some v => .hit v
  | none => .miss

/-- Result of `BeginEvaluation`: either an exclusive ticket, or a subscription
to the evaluation already in flight. -/
inductive BeginResult
  | ticket
  | alreadyInFlight
  deriving DecidableEq, Repr

/-- Modelled from the spec: `BeginEvaluation(key) -> exclusive ticket |
AlreadyInFlight(subscribe-handle)`.  The ticket holder is recorded as the
first subscriber so that `Complete` delivers the verdict to every requester. -/
def CacheState.beginEval (s : CacheState) (k : Key) (r : Requester) :
    BeginResult × CacheState :=
  match assocFind s.inflight k with
  | some subs => (.alreadyInFlight, { s with inflight := assocSet s.inflight k (subs ++ [r]) })
  | none => (.ticket, { s with inflight := (k, [r]) :: s.inflight })

/-- Modelled from the spec: `Complete(ticket, verdict)` — stores the verdict,
delivers it to every subscriber of the key's single in-flight evaluation, and
clears the in-flight marker.  Returns the list of deliveries. -/
def CacheState.complete (s : CacheState) (k : Key) (v : Verdict) :
    List (Requester × Verdict) × CacheState :=
  match assocFind s.inflight k with
  | some subs =>
      (subs.map (fun r => (r, v)),
       { entries := (k, v) :: removeKey s.entries k,
         inflight := removeKey s.inflight k })
  | none => ([], s)

/-- Modelled from the spec: failure mode of section 4.1 — if the in-flight
evaluation errors out, all subscribers receive the fail-safe default verdict
and the entry is not cached, so a future request re-evaluates. -/
def CacheState.completeError (s : CacheState) (k : Key) (dflt : Verdict) :
    List (Requester × Verdict) × CacheState :=
  match assocFind s.inflight k with
  | some subs =>
      (subs.map (fun r => (r, dflt)),
       { s with inflight := removeKey s.inflight k })
  | none => ([], s)

/-- Modelled from the spec: `Invalidate(key)` — administrative invalidation of
one key. -/
def CacheState.invalidate (s : CacheState) (k : Key) : CacheState :=
  { s with entries := removeKey s.entries k }

/-- Modelled from the spec: `Invalidate(all)` — administrative invalidation of
every cached entry, triggered by policy/configuration reload. -/
def CacheState.invalidateAll (s : CacheState) : CacheState :=
  { s with entries := [] }

/-- Modelled from the spec: the operations a concurrent worker or the
administrative surface may apply to the Result Cache (spec sections 4.1, 5
and 6). -/
inductive CacheOp
  | doLookup (k : Key)
  | doBegin (k : Key) (r : Requester)
  | doComplete (k : Key) (v : Verdict)
  | doCompleteError (k : Key) (dflt : Verdict)
  | doInvalidate (k : Key)
  | doInvalidateAll

/-- Observable outputs of a cache operation: a ticket grant, a subscription to
an in-flight evaluation, or the delivery of a verdict to a requester. -/
inductive CacheOutput
  | granted (k : Key) (r : Requester)
  | subscribed (k : Key) (r : Requester)
  | delivered (r : Requester) (v : Verdict)
  deriving DecidableEq, Repr

/-- One step of the Result Cache: apply an operation, returning the new state
and the outputs it produced. -/
def CacheState.step (s : CacheState) : CacheOp → CacheState × List CacheOutput
  | .doLookup _ => (s, [])
  | .doBegin k r =>
      match s.beginEval k r with
      | (.ticket, s') => (s', [.granted k r])
      | (.alreadyInFlight, s') => (s', [.subscribed k r])
  | .doComplete k v =>
      let p := s.complete k v
      (p.2, p.1.map (fun q => .delivered q.1 q.2))
  | .doCompleteError k d =>
      let p := s.completeError k d
      (p.2, p.1.map (fun q => .delivered q.1 q.2))
  | .doInvalidate k => (s.invalidate k, [])
  | .doInvalidateAll => (s.invalidateAll, [])

/-- Run a sequence of cache operations (one interleaving of the concurrent
workers), accumulating outputs in order. -/
def CacheState.run (s : CacheState) : List CacheOp → CacheState × List CacheOutput
  | [] => (s, [])
  | op :: ops =>
      let p := s.step op
      let q := p.1.run ops
      (q.1, p.2 ++ q.2)

/-- The per-key in-flight invariant: each decision key has at most one entry
in the in-flight table, i.e. at most one in-flight evaluation at any instant. -/
def CacheState.inflightUnique (s : CacheState) : Prop :=
  (s.inflight.map Prod.fst).Nodup

instance (s : CacheState) : Decidable s.inflightUnique := by
  unfold CacheState.inflightUnique
  infer_instance

/-- Modelled from the spec: an event from the Event Adapter — kind, subject
process reference (pid + identity generation), target (decision key and
path), a monotonic deadline, and a single-use response token (spec sections
3 and 6). -/
structure Event where
  kind : Nat
  subjectPid : Nat
  subjectGen : Nat
  key : Key
  targetPath : Nat
  deadline : Nat
  token : Nat
  deriving DecidableEq, Repr

/-- The policy source a verdict came from, for audit (spec section 3). -/
inductive PolicySource
  | fromCache
  | localRule
  | watchRule
  | remote
  | defaulted
  deriving DecidableEq, Repr

/-- Modelled from the spec: the Execution Controller's configuration — the
configured default verdict, the safety margin reserved before the kernel
deadline, whether a remote policy service is configured, the bounded wait
allowed for it, the local static rule table (exact match on decision key),
the scope/path-based watch rules, and the answers the remote service would
give (spec section 4.2; the controller's code `SNTExecutionController` is
declared in the header but not part of the excerpt). -/
structure ControllerConfig where
  defaultVerdict : Verdict
  margin : Nat
  remoteEnabled : Bool
  remoteWait : Nat
  localRules : List (Key × Verdict)
  watchRules : List (Nat × Verdict)
  remoteAnswers : List (Key × Verdict)
  deriving DecidableEq, Repr

/-- Worst-case durations of the controller's stages for one event, plus the
actual latency of the remote answer; time is abstract (monotonic ticks). -/
structure StageDurations where
  enrichCost : Nat
  cacheCheckCost : Nat
  localEvalCost : Nat
  watchEvalCost : Nat
  remoteLatency : Nat
  deriving DecidableEq, Repr

/-- The response the controller issues for one event: the consumed token, the
verdict, the instant it is issued (0 = event receipt), whether it is a
deadline-forced provisional default, and its policy source. -/
structure Response where
  token : Nat
  verdict : Verdict
  time : Nat
  provisional : Bool
  source : PolicySource
  deriving DecidableEq, Repr

/-- Everything observable about the controller's handling of one event: the
response, the `Respond(token, verdict)` calls made on the event's single-use
token, and the policy sources consulted, in order. -/
structure HandleOutcome where
  response : Response
  respondCalls : List (Nat × Verdict)
  consulted : List PolicySource
  deriving DecidableEq, Repr

/-- Modelled from the spec: the Execution Controller's decision state machine
for one event (spec section 4.2):
`Received → Enriching → CacheCheck → {CacheHit→Responded} |
{CacheMiss→Evaluating→Responded}`.  The controller reserves a safety margin
before the kernel deadline; at each checkpoint it short-circuits to the
configured default verdict if the next stage would not complete inside the
margin boundary (`deadline - margin`).  On a cache miss, `Evaluating`
consults in order: the local static rule table (exact match on the decision
key), the scope/path-based watch rules, then — only if configured and the
time budget allows — the remote policy service with a bounded wait
(`remoteWait`); a remote timeout or a deadline-forced fallback is flagged
provisional. -/
def handleEvent (cfg : ControllerConfig) (dur : StageDurations)
    (cache : CacheState) (ev : Event) : HandleOutcome :=
  if dur.enrichCost + dur.cacheCheckCost > ev.deadline - cfg.margin then
    { response := ⟨ev.token, cfg.defaultVerdict, 0, true, .defaulted⟩,
      respondCalls := [(ev.token, cfg.defaultVerdict)], consulted := [] }
  else
    match cache.lookup ev.key with
    | .hit v =>
        { response :=
            ⟨ev.token, v, dur.enrichCost + dur.cacheCheckCost, false, .fromCache⟩,
          respondCalls := [(ev.token, v)], consulted := [] }
    | .miss =>
        if dur.enrichCost + dur.cacheCheckCost + dur.localEvalCost >
            ev.deadline - cfg.margin then
          { response :=
              ⟨ev.token, cfg.defaultVerdict, dur.enrichCost + dur.cacheCheckCost,
                true, .defaulted⟩,
            respondCalls := [(ev.token, cfg.defaultVerdict)], consulted := [] }
        else
          match assocFind cfg.localRules ev.key with
          | some v =>
              { response :=
                  ⟨ev.token, v,
                    dur.enrichCost + dur.cacheCheckCost + dur.localEvalCost,
                    false, .localRule⟩,
                respondCalls := [(ev.token, v)], consulted := [.localRule] }
          | none =>
              if dur.enrichCost + dur.cacheCheckCost + dur.localEvalCost +
                  dur.watchEvalCost > ev.deadline - cfg.margin then
                { response :=
                    ⟨ev.token, cfg.defaultVerdict,
                      dur.enrichCost + dur.cacheCheckCost + dur.localEvalCost,
                      true, .defaulted⟩,
                  respondCalls := [(ev.token, cfg.defaultVerdict)],
                  consulted := [.localRule] }
              else
                match assocFind cfg.watchRules ev.targetPath with
                | some v =>
                    { response :=
                        ⟨ev.token, v,
                          dur.enrichCost + dur.cacheCheckCost + dur.localEvalCost +
                            dur.watchEvalCost,
                          false, .watchRule⟩,
                      respondCalls := [(ev.token, v)],
                      consulted := [.localRule, .watchRule] }
                | none =>
                    if cfg.remoteEnabled &&
                        decide (dur.enrichCost + dur.cacheCheckCost +
                          dur.localEvalCost + dur.watchEvalCost + cfg.remoteWait ≤
                          ev.deadline - cfg.margin) then
                      if dur.remoteLatency ≤ cfg.remoteWait then
                        match assocFind cfg.remoteAnswers ev.key with
                        | some v =>
                            { response :=
                                ⟨ev.token, v,
                                  dur.enrichCost + dur.cacheCheckCost +
                                    dur.localEvalCost + dur.watchEvalCost +
                                    dur.remoteLatency,
                                  false, .remote⟩,
                              respondCalls := [(ev.token, v)],
                              consulted := [.localRule, .watchRule, .remote] }
                        | none =>
                            { response :=
                                ⟨ev.token, cfg.defaultVerdict,
                                  dur.enrichCost + dur.cacheCheckCost +
                                    dur.localEvalCost + dur.watchEvalCost +
                                    dur.remoteLatency,
                                  true, .defaulted⟩,
                              respondCalls := [(ev.token, cfg.defaultVerdict)],
                              consulted := [.localRule, .watchRule, .remote] }
                      else
                        { response :=
                            ⟨ev.token, cfg.defaultVerdict,
                              dur.enrichCost + dur.cacheCheckCost +
                                dur.localEvalCost + dur.watchEvalCost +
                                cfg.remoteWait,
                              true, .defaulted⟩,
                          respondCalls := [(ev.token, cfg.defaultVerdict)],
                          consulted := [.localRule, .watchRule, .remote] }
                    else
                      { response :=
                          ⟨ev.token, cfg.defaultVerdict,
                            dur.enrichCost + dur.cacheCheckCost +
                              dur.localEvalCost + dur.watchEvalCost,
                            cfg.remoteEnabled, .defaulted⟩,
                        respondCalls := [(ev.token, cfg.defaultVerdict)],
                        consulted := [.localRule, .watchRule] }

/-- Modelled from the spec: a Process Record — pid, identity generation,
parent reference held as a lookup key (pid + generation, never an owning
link), executing-binary identity and signing identity (spec section 3;
the tracker's code `ProcessTree/process_tree.h` is declared in the header
but not part of the excerpt). -/
structure ProcessRecord where
  pid : Nat
  gen : Nat
  parentPid : Nat
  parentGen : Nat
  binaryId : Nat
  signingId : Nat
  deriving DecidableEq, Repr

/-- Look up a record by (pid, generation) in the tracker's table. -/
def findProc : List ((Nat × Nat) × ProcessRecord) → Nat → Nat → Option ProcessRecord
  | [], _, _ => none
  | (key, r) :: rest, pid, gen =>
      if key.1 = pid ∧ key.2 = gen then some r else findProc rest pid gen

/-- Modelled from the spec: the Process Tracker's live table of known
processes keyed by (pid, identity generation), surviving pid reuse
(spec section 4.3). -/
structure TrackerState where
  procs : List ((Nat × Nat) × ProcessRecord)
  deriving DecidableEq, Repr

/-- Modelled from the spec: `Lookup(pid, generation) -> record | NotFound`
(NotFound is `none`). -/
def TrackerState.lookup (t : TrackerState) (pid gen : Nat) : Option ProcessRecord :=
  findProc t.procs pid gen

/-- Remove every record stored under exactly (pid, generation). -/
def eraseProc : List ((Nat × Nat) × ProcessRecord) → Nat → Nat →
    List ((Nat × Nat) × ProcessRecord)
  | [], _, _ => []
  | (key, r) :: rest, pid, gen =>
      if key.1 = pid ∧ key.2 = gen then eraseProc rest pid gen
      else (key, r) :: eraseProc rest pid gen

/-- Modelled from the spec: `OnExit(pid, generation)` — destroys the record
identified by exactly that (pid, generation). -/
def TrackerState.onExit (t : TrackerState) (pid gen : Nat) : TrackerState :=
  ⟨eraseProc t.procs pid gen⟩

/-- Modelled from the spec: `OnForkOrExec(pid, parentPid, identityInfo)` —
creates the record for the new (pid, generation) identity. -/
def TrackerState.onForkOrExec (t : TrackerState) (pid gen parentPid parentGen
    binaryId signingId : Nat) : TrackerState :=
  ⟨((pid, gen), ⟨pid, gen, parentPid, parentGen, binaryId, signingId⟩) :: t.procs⟩

/-- An enriched event: the raw event decorated with the subject's record and
its ancestor chain (spec section 4.4). -/
structure EnrichedEvent where
  ev : Event
  subject : Option ProcessRecord
  ancestors : List ProcessRecord
  deriving DecidableEq, Repr

/-- A tracker read with explicit state threading: returns the looked-up
record together with the tracker state after the read. -/
def trackerRead (t : TrackerState) (pid gen : Nat) :
    Option ProcessRecord × TrackerState :=
  (t.lookup pid gen, t)

/-- The lazy, finite, bounded-depth ancestor walk over parent links
(spec sections 4.3 and design note on parent-only back-references), with
the tracker state threaded through every read. -/
def ancestorWalk : Nat → TrackerState → Nat → Nat →
    List ProcessRecord × TrackerState
  | 0, t, _, _ => ([], t)
  | fuel + 1, t, pid, gen =>
      match trackerRead t pid gen with
      | (none, t') => ([], t')
      | (some r, t') =>
          let rest := ancestorWalk fuel t' r.parentPid r.parentGen
          (r :: rest.1, rest.2)

/-- Modelled from the spec: `Enrich(event) -> EnrichedEvent` — decorates a
raw event with the subject's record and ancestor chain pulled from the
Process Tracker (spec section 4.4; the enricher's code
`EndpointSecurity/Enricher.h` is declared in the header but not part of the
excerpt).  The tracker state is threaded through every read and returned, so
the must-not-mutate frame condition is checkable. -/
def enrich (maxDepth : Nat) (ev : Event) (t : TrackerState) :
    EnrichedEvent × TrackerState :=
  let s := trackerRead t ev.subjectPid ev.subjectGen
  match s with
  | (none, t') => (⟨ev, none, []⟩, t')
  | (some r, t') =>
      let anc := ancestorWalk maxDepth t' r.parentPid r.parentGen
      (⟨ev, some r, anc.1⟩, anc.2)

/-- The subsystem members of `SantadDeps`, one per private member declared at
header lines 80-94. -/
inductive DepsMember
  | esapi
  | logger
  | metrics
  | watchItems
  | enricherM
  | authResultCache
  | controlConnection
  | compilerController
  | notifierQueue
  | syncdQueue
  | execController
  | prefixTree
  | ttyWriter
  | processTree
  deriving DecidableEq, Repr

/-- How a member can be held, per the C++/Objective-C type that declares it. -/
inductive OwnershipKind
  | sharedPtr
  | uniquePtr
  | objcStrong
  | rawCPtr
  deriving DecidableEq, Repr

/-- Whether an ownership kind is reference-counted shared ownership:
`std::shared_ptr` is, and an Objective-C object pointer under ARC is
(retain/release reference counting); `std::unique_ptr` and raw C pointers
are not. -/
def OwnershipKind.refCounted : OwnershipKind → Bool
  | .sharedPtr => true
  | .objcStrong => true
  | .uniquePtr => false
  | .rawCPtr => false

/-- The declared ownership of each `SantadDeps` member, transcribed from the
member declarations at header lines 80-94: `std::shared_ptr` for the C++
subsystems, Objective-C strong pointers (ARC) for the Objective-C ones. -/
def memberOwnership : DepsMember → OwnershipKind
  | .esapi => .sharedPtr
  | .logger => .sharedPtr
  | .metrics => .sharedPtr
  | .watchItems => .sharedPtr
  | .enricherM => .sharedPtr
  | .authResultCache => .sharedPtr
  | .controlConnection => .objcStrong
  | .compilerController => .objcStrong
  | .notifierQueue => .objcStrong
  | .syncdQueue => .objcStrong
  | .execController => .objcStrong
  | .prefixTree => .sharedPtr
  | .ttyWriter => .sharedPtr
  | .processTree => .sharedPtr

/-- The subsystem types appearing in the `SantadDeps` interface. -/
inductive SubsystemTy
  | esapiT
  | loggerT
  | metricsT
  | watchItemsT
  | enricherT
  | authResultCacheT
  | xpcConnectionT
  | compilerControllerT
  | notifierQueueT
  | syncdQueueT
  | execControllerT
  | prefixTreeT
  | ttyWriterT
  | processTreeT
  deriving DecidableEq, Repr

/-- The subsystem types of the constructor's parameters, in declaration order
(header lines 50-62).  Note there is no Enricher parameter. -/
def ctorParamTypes : List SubsystemTy :=
  [.esapiT, .loggerT, .metricsT, .watchItemsT, .authResultCacheT,
   .xpcConnectionT, .compilerControllerT, .notifierQueueT, .syncdQueueT,
   .execControllerT, .prefixTreeT, .ttyWriterT, .processTreeT]

/-- The subsystem types returned by the public accessors, in declaration
order (header lines 64-77). -/
def accessorTypes : List SubsystemTy :=
  [.authResultCacheT, .enricherT, .esapiT, .loggerT, .metricsT, .watchItemsT,
   .xpcConnectionT, .compilerControllerT, .notifierQueueT, .syncdQueueT,
   .execControllerT, .prefixTreeT, .ttyWriterT, .processTreeT]

/-- The instances supplied to the `SantadDeps` constructor (header lines
50-62); instance identities are opaque ids. -/
structure CtorArgs where
  esapi : Nat
  logger : Nat
  metrics : Nat
  watchItems : Nat
  authResultCache : Nat
  controlConnection : Nat
  compilerController : Nat
  notifierQueue : Nat
  syncdQueue : Nat
  execController : Nat
  prefixTree : Nat
  ttyWriter : Nat
  processTree : Nat
  deriving DecidableEq, Repr

/-- The `SantadDeps` composition root: one member per private field declared
at header lines 80-94. -/
structure SantadDeps where
  esapi_ : Nat
  logger_ : Nat
  metrics_ : Nat
  watch_items_ : Nat
  enricher_ : Nat
  auth_result_cache_ : Nat
  control_connection_ : Nat
  compiler_controller_ : Nat
  notifier_queue_ : Nat
  syncd_queue_ : Nat
  exec_controller_ : Nat
  prefix_tree_ : Nat
  tty_writer_ : Nat
  process_tree_ : Nat
  deriving DecidableEq, Repr

/-- Modelled from the header: the constructor stores each supplied instance
in the corresponding member; the Enricher member is created inside
construction (the constructor takes no Enricher parameter), with identity
`e`. -/
def mkSantadDeps (a : CtorArgs) (e : Nat) : SantadDeps :=
  ⟨a.esapi, a.logger, a.metrics, a.watchItems, e, a.authResultCache,
   a.controlConnection, a.compilerController, a.notifierQueue, a.syncdQueue,
   a.execController, a.prefixTree, a.ttyWriter, a.processTree⟩

/-- Accessors, state-passing form: each returns the accessed instance
together with the post-call `SantadDeps` value, so the claim that an accessor
changes nothing is checkable.  One accessor per header lines 64-77. -/
def SantadDeps.accAuthResultCache (d : SantadDeps) : Nat × SantadDeps :=
  (d.auth_result_cache_, d)

def SantadDeps.accEnricher (d : SantadDeps) : Nat × SantadDeps :=
  (d.enricher_, d)

def SantadDeps.accESAPI (d : SantadDeps) : Nat × SantadDeps :=
  (d.esapi_, d)

def SantadDeps.accLogger (d : SantadDeps) : Nat × SantadDeps :=
  (d.logger_, d)

def SantadDeps.accMetrics (d : SantadDeps) : Nat × SantadDeps :=
  (d.metrics_, d)

def SantadDeps.accWatchItems (d : SantadDeps) : Nat × SantadDeps :=
  (d.watch_items_, d)

def SantadDeps.accControlConnection (d : SantadDeps) : Nat × SantadDeps :=
  (d.control_connection_, d)

def SantadDeps.accCompilerController (d : SantadDeps) : Nat × SantadDeps :=
  (d.compiler_controller_, d)

def SantadDeps.accNotifierQueue (d : SantadDeps) : Nat × SantadDeps :=
  (d.notifier_queue_, d)

def SantadDeps.accSyncdQueue (d : SantadDeps) : Nat × SantadDeps :=
  (d.syncd_queue_, d)

def SantadDeps.accExecController (d : SantadDeps) : Nat × SantadDeps :=
  (d.exec_controller_, d)

def SantadDeps.accPrefixTree (d : SantadDeps) : Nat × SantadDeps :=
  (d.prefix_tree_, d)

def SantadDeps.accTTYWriter (d : SantadDeps) : Nat × SantadDeps :=
  (d.tty_writer_, d)

def SantadDeps.accProcessTree (d : SantadDeps) : Nat × SantadDeps :=
  (d.process_tree_, d)

lemma assocFind_eq_none_iff {α : Type} (l : List (Key × α)) (k : Key) :
    assocFind l k = none ↔ ∀ p ∈ l, p.1 ≠ k := by
  induction l with
  | nil => simp [assocFind]
  | cons hd tl ih =>
      obtain ⟨k', a⟩ := hd
      by_cases hk : k' = k
      · subst hk; simp [assocFind]
      · simp [assocFind, hk, ih]

lemma removeKey_of_not_mem {α : Type} (l : List (Key × α)) (k : Key)
    (h : ∀ p ∈ l, p.1 ≠ k) : removeKey l k = l := by
  induction l with
  | nil => rfl
  | cons hd tl ih =>
      have hhd : hd.1 ≠ k := h hd (List.mem_cons_self hd tl)
      have htl : ∀ p ∈ tl, p.1 ≠ k := fun p hp => h p (List.mem_cons_of_mem hd hp)
      simpa [removeKey, List.filter_cons, bne_iff_ne, hhd] using ih htl

lemma assocFind_assocSet_self {α : Type} (l : List (Key × α)) (k : Key) (a : α) :
    assocFind (assocSet l k a) k = some a := by
  induction l with
  | nil => simp [assocSet, assocFind]
  | cons hd tl ih =>
      obtain ⟨k', a'⟩ := hd
      by_cases hk : k' = k
      · simp [assocSet, hk, assocFind]
      · simp [assocSet, hk, assocFind, ih]

lemma assocSet_assocSet {α : Type} (l : List (Key × α)) (k : Key) (a b : α) :
    assocSet (assocSet l k a) k b = assocSet l k b := by
  induction l with
  | nil => simp [assocSet]
  | cons hd tl ih =>
      obtain ⟨k', a'⟩ := hd
      by_cases hk : k' = k
      · simp [assocSet, hk]
      · simp [assocSet, hk, ih]

lemma assocFind_removeKey_self {α : Type} (l : List (Key × α)) (k : Key) :
    assocFind (removeKey l k) k = none := by
  rw [assocFind_eq_none_iff]
  intro p hp
  have h := List.of_mem_filter hp
  simpa [bne_iff_ne] using h

lemma map_fst_assocSet_of_find_some {α : Type} (l : List (Key × α)) (k : Key)
    (a b : α) (h : assocFind l k = some b) :
    (assocSet l k a).map Prod.fst = l.map Prod.fst := by
  induction l with
  | nil => simp [assocFind] at h
  | cons hd tl ih =>
      obtain ⟨k', a'⟩ := hd
      by_cases hk : k' = k
      · simp [assocSet, hk]
      · simp only [assocFind, hk, if_false] at h
        simp [assocSet, hk, ih h]

lemma not_mem_keys_of_find_none {α : Type} (l : List (Key × α)) (k : Key)
    (h : assocFind l k = none) : k ∉ l.map Prod.fst := by
  have hall := (assocFind_eq_none_iff l k).mp h
  intro hmem
  obtain ⟨p, hp, hpk⟩ := List.mem_map.mp hmem
  exact hall p hp hpk

lemma keys_removeKey_sublist {α : Type} (l : List (Key × α)) (k : Key) :
    ((removeKey l k).map Prod.fst).Sublist (l.map Prod.fst) :=
  (List.filter_sublist l).map Prod.fst

lemma step_inflightUnique (s : CacheState) (op : CacheOp)
    (h : s.inflightUnique) : (s.step op).1.inflightUnique := by
  cases op with
  | doLookup k => simpa [CacheState.step]
  | doBegin k r =>
      unfold CacheState.inflightUnique at h ⊢
      cases hfind : assocFind s.inflight k with
      | some subs =>
          simp only [CacheState.step, CacheState.beginEval, hfind]
          rw [map_fst_assocSet_of_find_some s.inflight k (subs ++ [r]) subs hfind]
          exact h
      | none =>
          simp only [CacheState.step, CacheState.beginEval, hfind]
          simp [List.nodup_cons, not_mem_keys_of_find_none s.inflight k hfind, h]
  | doComplete k v =>
      unfold CacheState.inflightUnique at h ⊢
      cases hfind : assocFind s.inflight k with
      | some subs =>
          simp only [CacheState.step, CacheState.complete, hfind]
          exact (keys_removeKey_sublist s.inflight k).nodup h
      | none => simp only [CacheState.step, CacheState.complete, hfind]; exact h
  | doCompleteError k d =>
      unfold CacheState.inflightUnique at h ⊢
      cases hfind : assocFind s.inflight k with
      | some subs =>
          simp only [CacheState.step, CacheState.completeError, hfind]
          exact (keys_removeKey_sublist s.inflight k).nodup h
      | none => simp only [CacheState.step, CacheState.completeError, hfind]; exact h
  | doInvalidate k =>
      unfold CacheState.inflightUnique at h ⊢
      simpa [CacheState.step, CacheState.invalidate] using h
  | doInvalidateAll =>
      unfold CacheState.inflightUnique at h ⊢
      simpa [CacheState.step, CacheState.invalidateAll] using h

lemma run_inflightUnique (s : CacheState) (ops : List CacheOp)
    (h : s.inflightUnique) : (s.run ops).1.inflightUnique := by
  induction ops generalizing s with
  | nil => simpa [CacheState.run]
  | cons op rest ih =>
      simp only [CacheState.run]
      exact ih _ (step_inflightUnique s op h)

lemma run_append (s : CacheState) (l1 l2 : List CacheOp) :
    s.run (l1 ++ l2) =
      (((s.run l1).1.run l2).1, (s.run l1).2 ++ ((s.run l1).1.run l2).2) := by
  induction l1 generalizing s with
  | nil => simp [CacheState.run]
  | cons op ops ih =>
      simp only [List.cons_append, CacheState.run]
      rw [show (ops.append l2) = ops ++ l2 from rfl, ih]
      simp [List.append_assoc]

lemma assocSet_self_of_find {α : Type} (l : List (Key × α)) (k : Key) (a : α)
    (h : assocFind l k = some a) : assocSet l k a = l := by
  induction l with
  | nil => simp [assocFind] at h
  | cons hd tl ih =>
      obtain ⟨k', a'⟩ := hd
      by_cases hk : k' = k
      · subst hk
        have h' : a' = a := by simpa [assocFind] using h
        simp [assocSet, h']
      · simp only [assocFind, hk, if_false] at h
        simp [assocSet, hk, ih h]

lemma run_begins (rs : List Requester) (s : CacheState) (k : Key)
    (subs : List Requester) (h : assocFind s.inflight k = some subs) :
    s.run (rs.map (CacheOp.doBegin k)) =
      ({ s with inflight := assocSet s.inflight k (subs ++ rs) },
       rs.map (fun r => CacheOutput.subscribed k r)) := by
  induction rs generalizing s subs with
  | nil =>
      simp [CacheState.run, assocSet_self_of_find s.inflight k subs h]
  | cons r rest ih =>
      simp only [List.map_cons, CacheState.run, CacheState.step,
        CacheState.beginEval, h]
      have hfind' :
          assocFind (assocSet s.inflight k (subs ++ [r])) k = some (subs ++ [r]) :=
        assocFind_assocSet_self s.inflight k (subs ++ [r])
      rw [ih { s with inflight := assocSet s.inflight k (subs ++ [r]) }
        (subs ++ [r]) hfind']
      simp [assocSet_assocSet, List.append_assoc]

/-- Claim C5: Invalidation of the Result Cache is idempotent and complete:
`Invalidate(key)` on a key that is not cached (its lookup is a miss) leaves
the cache state unchanged, and after `Invalidate(all)` every subsequent lookup
on any key is a miss. -/
theorem invalidate_idempotent_and_complete (s : CacheState) (k : Key)
    (h : s.lookup k = .miss) :
    s.invalidate k = s ∧ ∀ k' : Key, (s.invalidateAll).lookup k' = .miss := by
  constructor
  · have hnone : assocFind s.entries k = none := by
      unfold CacheState.lookup at h
      cases hfind : assocFind s.entries k with
      | none => rfl
      | some v => rw [hfind] at h; simp at h
    have hmem := (assocFind_eq_none_iff s.entries k).mp hnone
    unfold CacheState.invalidate
    rw [removeKey_of_not_mem s.entries k hmem]
  · intro k'
    simp [CacheState.invalidateAll, CacheState.lookup, assocFind]

/-- Witness for C5 at a concrete cache state. -/
theorem invalidate_idempotent_and_complete_witness :
    (CacheState.mk [(1, Verdict.allow)] []).invalidate 2 =
        CacheState.mk [(1, Verdict.allow)] [] ∧
      ∀ k' : Key,
        ((CacheState.mk [(1, Verdict.allow)] []).invalidateAll).lookup k' =
          LookupResult.miss :=
  invalidate_idempotent_and_complete (CacheState.mk [(1, Verdict.allow)] []) 2
    (by decide)

/-- Claim C1: For every sequence of concurrent lookup/evaluation requests on
the same decision key, at most one evaluation is in flight at any instant
(the in-flight table never holds two entries for one key, along any
interleaving of operations), and exactly one evaluation executes: of the
concurrent requesters for an uncached, not-in-flight key, exactly the first
is granted the evaluation ticket, every later one subscribes, and on
completion every requester receives the verdict of that single evaluation —
never a second evaluation, never a stale partial result. -/
theorem single_inflight_evaluation_per_key
    (s : CacheState) (k : Key) (v : Verdict) (r : Requester)
    (rs : List Requester)
    (hnin : assocFind s.inflight k = none)
    (hnodup : s.inflightUnique) :
    (∀ ops : List CacheOp, ((s.run ops).1).inflightUnique) ∧
    (s.run ((r :: rs).map (CacheOp.doBegin k) ++ [CacheOp.doComplete k v])).2 =
      CacheOutput.granted k r ::
        (rs.map (fun q => CacheOutput.subscribed k q) ++
          (r :: rs).map (fun q => CacheOutput.delivered q v)) := by
  refine ⟨fun ops => run_inflightUnique s ops hnodup, ?_⟩
  have hstep :
      s.step (CacheOp.doBegin k r) =
        ({ s with inflight := (k, [r]) :: s.inflight },
          [CacheOutput.granted k r]) := by
    simp [CacheState.step, CacheState.beginEval, hnin]
  have hfind1 :
      assocFind (({ s with inflight := (k, [r]) :: s.inflight } :
        CacheState).inflight) k = some [r] := by
    simp [assocFind]
  have hbegins :=
    run_begins rs ({ s with inflight := (k, [r]) :: s.inflight }) k [r] hfind1
  have hset :
      assocSet ((k, [r]) :: s.inflight) k ([r] ++ rs) = (k, r :: rs) :: s.inflight := by
    simp [assocSet]
  have hcomplete :
      (({ s with inflight := (k, r :: rs) :: s.inflight } :
          CacheState).run [CacheOp.doComplete k v]).2 =
        (r :: rs).map (fun q => CacheOutput.delivered q v) := by
    simp [CacheState.run, CacheState.step, CacheState.complete, assocFind]
  simp only [List.map_cons, List.cons_append, CacheState.run, hstep]
  rw [show ((rs.map (CacheOp.doBegin k)).append [CacheOp.doComplete k v]) =
      rs.map (CacheOp.doBegin k) ++ [CacheOp.doComplete k v] from rfl]
  rw [run_append, hbegins]
  simp only [hset] at *
  rw [hbegins] at *
  simp [hcomplete]

/-- Witness for C1: two concurrent requesters (ids 1 and 2) on key 0 against
the empty cache — requester 1 is granted the single evaluation, requester 2
subscribes, and both receive the completed verdict. -/
theorem single_inflight_evaluation_per_key_witness :
    (CacheState.empty.run
        (([1, 2] : List Requester).map (CacheOp.doBegin 0) ++
          [CacheOp.doComplete 0 Verdict.allow])).2 =
      CacheOutput.granted 0 1 ::
        (([2] : List Requester).map (fun q => CacheOutput.subscribed 0 q) ++
          ([1, 2] : List Requester).map
            (fun q => CacheOutput.delivered q Verdict.allow)) :=
  (single_inflight_evaluation_per_key CacheState.empty 0 Verdict.allow 1 [2]
    (by decide) (by decide)).2

/-- Claim C6: If the single in-flight evaluation for a decision key errors out,
every subscriber to that evaluation receives the fail-safe default verdict,
no entry for that key is stored in the Result Cache (the cached entries are
unchanged), and a subsequent request for the same key is granted a fresh
evaluation ticket — the transient failure is not latched. -/
theorem evaluation_failure_not_latched
    (s : CacheState) (k : Key) (dflt : Verdict) (subs : List Requester)
    (r : Requester) (h : assocFind s.inflight k = some subs) :
    (s.completeError k dflt).1 = subs.map (fun q => (q, dflt)) ∧
    ((s.completeError k dflt).2).entries = s.entries ∧
    (((s.completeError k dflt).2).beginEval k r).1 = BeginResult.ticket := by
  refine ⟨?_, ?_, ?_⟩
  · simp [CacheState.completeError, h]
  · simp [CacheState.completeError, h]
  · simp [CacheState.completeError, h, CacheState.beginEval,
      assocFind_removeKey_self]

/-- Witness for C6: key 7 in flight with subscribers 1 and 2; the failed
evaluation delivers the deny default to both, caches nothing, and requester 3
then gets a fresh ticket. -/
theorem evaluation_failure_not_latched_witness :
    ((CacheState.mk [] [(7, [1, 2])]).completeError 7 Verdict.deny).1 =
        ([1, 2] : List Requester).map (fun q => (q, Verdict.deny)) ∧
      (((CacheState.mk [] [(7, [1, 2])]).completeError 7 Verdict.deny).2).entries =
        (CacheState.mk [] [(7, [1, 2])]).entries ∧
      ((((CacheState.mk [] [(7, [1, 2])]).completeError 7 Verdict.deny).2).beginEval
          7 3).1 = BeginResult.ticket :=
  evaluation_failure_not_latched (CacheState.mk [] [(7, [1, 2])]) 7 Verdict.deny
    [1, 2] 3 (by decide)

lemma handleEvent_time_le (cfg : ControllerConfig) (dur : StageDurations)
    (cache : CacheState) (ev : Event) :
    (handleEvent cfg dur cache ev).response.time ≤ ev.deadline - cfg.margin := by
  unfold handleEvent
  repeat' split
  all_goals simp_all
  all_goals omega

lemma handleEvent_respondCalls (cfg : ControllerConfig) (dur : StageDurations)
    (cache : CacheState) (ev : Event) :
    (handleEvent cfg dur cache ev).respondCalls =
      [(ev.token, (handleEvent cfg dur cache ev).response.verdict)] := by
  unfold handleEvent
  repeat' split
  all_goals rfl

/-- Claim C2: For every event delivered by the Event Adapter, the daemon sends
some response: the list of `Respond` calls is never empty, and the response
carries either a verdict issued strictly before the event's deadline or the
configured default verdict at the safety-margin boundary — an event is never
left unanswered. -/
theorem every_event_answered (cfg : ControllerConfig) (dur : StageDurations)
    (cache : CacheState) (ev : Event)
    (hm : 0 < cfg.margin) (hd : cfg.margin ≤ ev.deadline) :
    (handleEvent cfg dur cache ev).respondCalls ≠ [] ∧
    ((handleEvent cfg dur cache ev).response.time < ev.deadline ∨
      ((handleEvent cfg dur cache ev).response.verdict = cfg.defaultVerdict ∧
        (handleEvent cfg dur cache ev).response.time = ev.deadline - cfg.margin)) := by
  constructor
  · rw [handleEvent_respondCalls cfg dur cache ev]
    simp
  · left
    have h := handleEvent_time_le cfg dur cache ev
    omega

/-- Witness for C2 at a concrete event and configuration. -/
theorem every_event_answered_witness :
    (handleEvent
        ⟨Verdict.deny, 10, false, 0, [], [], []⟩
        ⟨1, 1, 1, 1, 0⟩ CacheState.empty
        ⟨0, 1, 1, 5, 5, 100, 42⟩).respondCalls ≠ [] ∧
      ((handleEvent
          ⟨Verdict.deny, 10, false, 0, [], [], []⟩
          ⟨1, 1, 1, 1, 0⟩ CacheState.empty
          ⟨0, 1, 1, 5, 5, 100, 42⟩).response.time < 100 ∨
        ((handleEvent
            ⟨Verdict.deny, 10, false, 0, [], [], []⟩
            ⟨1, 1, 1, 1, 0⟩ CacheState.empty
            ⟨0, 1, 1, 5, 5, 100, 42⟩).response.verdict = Verdict.deny ∧
          (handleEvent
              ⟨Verdict.deny, 10, false, 0, [], [], []⟩
              ⟨1, 1, 1, 1, 0⟩ CacheState.empty
              ⟨0, 1, 1, 5, 5, 100, 42⟩).response.time = 100 - 10)) :=
  every_event_answered ⟨Verdict.deny, 10, false, 0, [], [], []⟩ ⟨1, 1, 1, 1, 0⟩
    CacheState.empty ⟨0, 1, 1, 5, 5, 100, 42⟩ (by decide) (by decide)

/-- Claim C3: For every event, the core consumes the event's single-use
response token exactly once: exactly one `Respond(token, verdict)` call is
made, on the event's own token, carrying the issued verdict — a second
response with the same token is unreachable in every branch of the
controller. -/
theorem response_token_consumed_exactly_once (cfg : ControllerConfig)
    (dur : StageDurations) (cache : CacheState) (ev : Event) :
    (handleEvent cfg dur cache ev).respondCalls.length = 1 ∧
    (handleEvent cfg dur cache ev).respondCalls =
      [(ev.token, (handleEvent cfg dur cache ev).response.verdict)] := by
  have h := handleEvent_respondCalls cfg dur cache ev
  exact ⟨by rw [h]; rfl, h⟩

/-- Claim C7: On a cache miss, the Execution Controller's `Evaluating` state
consults policy sources in a fixed order — local static rule table, then
scope/path-based watch rules, then the remote policy service: the consulted
list is always a prefix of `[localRule, watchRule, remote]`; the remote
service is consulted only if configured and only if the remaining time
budget allows its bounded wait; and on a cache hit nothing is consulted. -/
theorem evaluating_consults_in_fixed_order (cfg : ControllerConfig)
    (dur : StageDurations) (cache : CacheState) (ev : Event) :
    (∃ rest, (handleEvent cfg dur cache ev).consulted ++ rest =
      [PolicySource.localRule, PolicySource.watchRule, PolicySource.remote]) ∧
    (PolicySource.remote ∈ (handleEvent cfg dur cache ev).consulted →
      cfg.remoteEnabled = true ∧
      dur.enrichCost + dur.cacheCheckCost + dur.localEvalCost +
          dur.watchEvalCost + cfg.remoteWait ≤ ev.deadline - cfg.margin) ∧
    (∀ v, cache.lookup ev.key = LookupResult.hit v →
      (handleEvent cfg dur cache ev).consulted = []) := by
  unfold handleEvent
  repeat' split
  all_goals refine ⟨⟨_, rfl⟩, fun hmem => ?_, fun v hv => ?_⟩
  all_goals simp_all

/-- Witness for C7: with a remote-enabled configuration, no matching rules
and an ample deadline, the remote service is consulted, so the theorem's
budget implication fires; the cache-hit implication fires on a cached key. -/
theorem evaluating_consults_in_fixed_order_witness :
    ((⟨Verdict.deny, 10, true, 5, [], [], [(1, Verdict.allow)]⟩ :
        ControllerConfig).remoteEnabled = true ∧
      (⟨1, 1, 1, 1, 2⟩ : StageDurations).enrichCost +
          (⟨1, 1, 1, 1, 2⟩ : StageDurations).cacheCheckCost +
          (⟨1, 1, 1, 1, 2⟩ : StageDurations).localEvalCost +
          (⟨1, 1, 1, 1, 2⟩ : StageDurations).watchEvalCost +
          (⟨Verdict.deny, 10, true, 5, [], [], [(1, Verdict.allow)]⟩ :
            ControllerConfig).remoteWait ≤
        (⟨0, 1, 1, 1, 5, 100, 42⟩ : Event).deadline -
          (⟨Verdict.deny, 10, true, 5, [], [], [(1, Verdict.allow)]⟩ :
            ControllerConfig).margin) ∧
      (handleEvent ⟨Verdict.deny, 10, true, 5, [], [], [(1, Verdict.allow)]⟩
          ⟨1, 1, 1, 1, 2⟩ (CacheState.mk [(1, Verdict.allow)] [])
          ⟨0, 1, 1, 1, 5, 100, 42⟩).consulted = [] :=
  ⟨(evaluating_consults_in_fixed_order
      ⟨Verdict.deny, 10, true, 5, [], [], [(1, Verdict.allow)]⟩
      ⟨1, 1, 1, 1, 2⟩ CacheState.empty ⟨0, 1, 1, 1, 5, 100, 42⟩).2.1
      (by decide),
    (evaluating_consults_in_fixed_order
      ⟨Verdict.deny, 10, true, 5, [], [], [(1, Verdict.allow)]⟩
      ⟨1, 1, 1, 1, 2⟩ (CacheState.mk [(1, Verdict.allow)] [])
      ⟨0, 1, 1, 1, 5, 100, 42⟩).2.2 Verdict.allow (by decide)⟩

lemma findProc_eraseProc_self (l : List ((Nat × Nat) × ProcessRecord))
    (pid gen : Nat) :
    findProc (eraseProc l pid gen) pid gen = none := by
  induction l with
  | nil => rfl
  | cons hd tl ih =>
      obtain ⟨⟨p, g⟩, r⟩ := hd
      by_cases h : p = pid ∧ g = gen
      · simpa [eraseProc, h] using ih
      · simpa [eraseProc, findProc, h] using ih

/-- Claim C4: After the Process Tracker processes an exit notification for a
(pid, generation) pair, a lookup with that exact generation returns NotFound
(`none`): immediately after the exit, and still after the pid is reused by a
new process with a different generation — while a lookup with the new
generation returns the new record. -/
theorem stale_generation_lookup_not_found (t : TrackerState)
    (pid gen gen2 parentPid parentGen binaryId signingId : Nat)
    (hne : gen ≠ gen2) :
    (t.onExit pid gen).lookup pid gen = none ∧
    (((t.onExit pid gen).onForkOrExec pid gen2 parentPid parentGen binaryId
        signingId).lookup pid gen = none) ∧
    (((t.onExit pid gen).onForkOrExec pid gen2 parentPid parentGen binaryId
        signingId).lookup pid gen2 =
      some ⟨pid, gen2, parentPid, parentGen, binaryId, signingId⟩) := by
  have hbase : (t.onExit pid gen).lookup pid gen = none :=
    findProc_eraseProc_self t.procs pid gen
  refine ⟨hbase, ?_, ?_⟩
  · have hne2 : gen2 ≠ gen := fun h => hne h.symm
    simpa [TrackerState.lookup, TrackerState.onForkOrExec, findProc, hne2]
      using hbase
  · simp [TrackerState.lookup, TrackerState.onForkOrExec, findProc]

/-- Witness for C4, the spec's Scenario D: pid 400 with generation 1 exits,
pid 400 is reused with generation 2 — the stale lookup is NotFound, the new
one returns the new record. -/
theorem stale_generation_lookup_not_found_witness :
    ((TrackerState.mk [((400, 1), ⟨400, 1, 1, 0, 9, 9⟩)]).onExit 400 1).lookup
        400 1 = none ∧
      ((((TrackerState.mk [((400, 1), ⟨400, 1, 1, 0, 9, 9⟩)]).onExit 400
          1).onForkOrExec 400 2 1 0 7 7).lookup 400 1 = none) ∧
      ((((TrackerState.mk [((400, 1), ⟨400, 1, 1, 0, 9, 9⟩)]).onExit 400
          1).onForkOrExec 400 2 1 0 7 7).lookup 400 2 =
        some ⟨400, 2, 1, 0, 7, 7⟩) :=
  stale_generation_lookup_not_found
    (TrackerState.mk [((400, 1), ⟨400, 1, 1, 0, 9, 9⟩)]) 400 1 2 1 0 7 7
    (by decide)

lemma ancestorWalk_state (fuel : Nat) (t : TrackerState) (pid gen : Nat) :
    (ancestorWalk fuel t pid gen).2 = t := by
  induction fuel generalizing t pid gen with
  | zero => rfl
  | succ n ih =>
      unfold ancestorWalk trackerRead
      cases h : t.lookup pid gen with
      | none => simp [h]
      | some r => simp [h, ih]

/-- Claim C8: `Enrich(event)` is a pure function of the event and the current
Process Tracker state: it leaves the Process Tracker state unchanged (the
state threaded through all its reads comes back equal), and a repeated call
on the state it returns produces the identical result. -/
theorem enrich_pure_and_frame (maxDepth : Nat) (ev : Event) (t : TrackerState) :
    (enrich maxDepth ev t).2 = t ∧
    enrich maxDepth ev ((enrich maxDepth ev t).2) = enrich maxDepth ev t := by
  have hframe : (enrich maxDepth ev t).2 = t := by
    unfold enrich trackerRead
    cases h : t.lookup ev.subjectPid ev.subjectGen with
    | none => simp [h]
    | some r => simp [h, ancestorWalk_state]
  exact ⟨hframe, by rw [hframe]⟩

/-- Claim C9: Every long-lived subsystem member held by the `SantadDeps`
composition root — the cache, logger, tracker, queues and the rest of the
members declared at header lines 80-94 — is held under reference-counted
ownership (`std::shared_ptr` or an ARC strong Objective-C pointer); none is
held by unique or raw non-counted ownership. -/
theorem deps_members_reference_counted :
    ∀ m : DepsMember, (memberOwnership m).refCounted = true := by
  intro m
  cases m <;> rfl

/-- Counterexample for C10 as stated: the `Enricher` accessor (header
line 65) returns a subsystem of a type that appears among no constructor
parameter (header lines 50-62), so not every accessor can return an
instance supplied at construction. -/
theorem enricher_accessor_not_ctor_supplied :
    SubsystemTy.enricherT ∈ accessorTypes ∧
      SubsystemTy.enricherT ∉ ctorParamTypes := by
  decide

/-- Claim C10, amended: A `SantadDeps` instance is immutable after
construction: each accessor for a constructor-supplied subsystem returns
exactly the instance supplied at construction, the `Enricher` accessor
returns the instance the constructor itself created (none is supplied), each
accessor call leaves the instance unchanged, and hence repeated calls to the
same accessor return the same value. -/
theorem deps_accessors_fixed_after_construction (a : CtorArgs) (e : Nat) :
    (mkSantadDeps a e).accAuthResultCache = (a.authResultCache, mkSantadDeps a e) ∧
    (mkSantadDeps a e).accEnricher = (e, mkSantadDeps a e) ∧
    (mkSantadDeps a e).accESAPI = (a.esapi, mkSantadDeps a e) ∧
    (mkSantadDeps a e).accLogger = (a.logger, mkSantadDeps a e) ∧
    (mkSantadDeps a e).accMetrics = (a.metrics, mkSantadDeps a e) ∧
    (mkSantadDeps a e).accWatchItems = (a.watchItems, mkSantadDeps a e) ∧
    (mkSantadDeps a e).accControlConnection =
      (a.controlConnection, mkSantadDeps a e) ∧
    (mkSantadDeps a e).accCompilerController =
      (a.compilerController, mkSantadDeps a e) ∧
    (mkSantadDeps a e).accNotifierQueue = (a.notifierQueue, mkSantadDeps a e) ∧
    (mkSantadDeps a e).accSyncdQueue = (a.syncdQueue, mkSantadDeps a e) ∧
    (mkSantadDeps a e).accExecController = (a.execController, mkSantadDeps a e) ∧
    (mkSantadDeps a e).accPrefixTree = (a.prefixTree, mkSantadDeps a e) ∧
    (mkSantadDeps a e).accTTYWriter = (a.ttyWriter, mkSantadDeps a e) ∧
    (mkSantadDeps a e).accProcessTree = (a.processTree, mkSantadDeps a e) :=
  ⟨rfl, rfl, rfl, rfl, rfl, rfl, rfl, rfl, rfl, rfl, rfl, rfl, rfl, rfl⟩

end Santa
